import Mathlib

/-!
Verification of the matrimony-management-server backend (Express + MongoDB).

The development shallowly embeds the two pieces of the service that carry
design content — the biodata query/filter endpoint (`GET /biodatas`) and the
auto-incrementing profile-id allocators (`POST /biodatas`, `getNextBiodataId`)
— together with the user-upsert route (`POST /users`) and the route-dispatch
order of the `/biodatas/...` GET routes.

Text is modelled as `List Char`.  JavaScript numbers that arise here are
integers or NaN; a possibly-NaN integer is modelled as `Option Int` with
`none` standing for NaN.  MongoDB collections are modelled as Lean lists in
insertion order; each storage operation is one atomic state transformer, which
is MongoDB's documented semantics for single-document operations.
-/

abbrev Str := List Char

def lowerStr (s : Str) : Str := s.map Char.toLower

/-- Atoms of the modelled JavaScript `RegExp` fragment: literal characters and
the `.` wildcard.  The route handlers interpolate raw query-string values into
patterns (`new RegExp("^" + gender + "$", "i")` and `$regex: q`), so the
pattern text is arbitrary user input; the model covers patterns built from
literal characters and `.`, and maps any other metacharacter to an
unrepresentable pattern (`toPattern` returns `none`). -/
inductive RexAtom where
  | lit (c : Char)
  | dot
deriving DecidableEq, Repr

/-- Characters with a special meaning in JavaScript regular expressions. -/
def regexMetaChars : List Char :=
  ['\\', '^', '$', '.', '*', '+', '?', '(', ')', '[', ']', '|',
   Char.ofNat 123, Char.ofNat 125]

def isRegexMeta (c : Char) : Bool := regexMetaChars.contains c

/-- Parse interpolated pattern text into the modelled fragment: `.` becomes
the wildcard, any other metacharacter falls outside the fragment, and every
remaining character is a literal. -/
def toPattern : Str → Option (List RexAtom)
  | [] => some []
  | c :: cs =>
    if c = '.' then (toPattern cs).map (fun p => RexAtom.dot :: p)
    else if isRegexMeta c then none
    else (toPattern cs).map (fun p => RexAtom.lit c :: p)

/-- Case-insensitive single-atom match (the `i` flag lower-cases both sides). -/
def atomMatchCI : RexAtom → Char → Bool
  | RexAtom.lit a, c => a.toLower == c.toLower
  | RexAtom.dot, _ => true

/-- Anchored (`^...$`) case-insensitive match of a pattern against a string. -/
def fullMatchCI : List RexAtom → Str → Bool
  | [], [] => true
  | a :: p, c :: s => atomMatchCI a c && fullMatchCI p s
  | _, _ => false

/-- The pattern matches some prefix of the string. -/
def prefixMatchCI : List RexAtom → Str → Bool
  | [], _ => true
  | _ :: _, [] => false
  | a :: p, c :: s => atomMatchCI a c && prefixMatchCI p s

/-- Unanchored case-insensitive search (MongoDB `$regex` with `$options: "i"`):
the pattern matches starting at some position of the string. -/
def searchCI (p : List RexAtom) : Str → Bool
  | [] => prefixMatchCI p []
  | c :: s => prefixMatchCI p (c :: s) || searchCI p s

/-- `new RegExp("^" + pat + "$", "i").test s`, on the modelled fragment. -/
def regexFullCI (pat s : Str) : Bool :=
  match toPattern pat with
  | some p => fullMatchCI p s
  | none => false

/-- `s` matches `{ $regex: pat, $options: "i" }`, on the modelled fragment. -/
def regexSearchCI (pat s : Str) : Bool :=
  match toPattern pat with
  | some p => searchCI p s
  | none => false

/-- `p` occurs as a contiguous substring of `s`. -/
def isSubstrB (p : Str) : Str → Bool
  | [] => p.isEmpty
  | c :: s => p.isPrefixOf (c :: s) || isSubstrB p s

/-- The spec's wording for the free-text filter: `p` occurs in `s` as a
case-insensitive substring. -/
def containsCI (p s : Str) : Bool := isSubstrB (lowerStr p) (lowerStr s)

def digitsToNat (ds : Str) : Nat :=
  ds.foldl (fun n c => 10 * n + (c.toNat - '0'.toNat)) 0

/-- Leading decimal-digit run of a string, `none` when there is none. -/
def parseDigits (cs : Str) : Option Nat :=
  if (cs.takeWhile Char.isDigit).isEmpty then none
  else some (digitsToNat (cs.takeWhile Char.isDigit))

/-- JavaScript `parseInt` on the decimal fragment used by the routes: optional
leading spaces, optional sign, then a leading digit run (trailing characters
are ignored); `none` models NaN. -/
def parseIntJS (s : Str) : Option Int :=
  match s.dropWhile (fun c => c = ' ') with
  | '-' :: rest => (parseDigits rest).map (fun n => -(n : Int))
  | '+' :: rest => (parseDigits rest).map (fun n => (n : Int))
  | cs => (parseDigits cs).map (fun n => (n : Int))

/-- A biodata profile, restricted to the fields the query engine reads. -/
structure Biodata where
  name : Str
  biodataType : Str
  age : Int
  occupation : Str
  permanentDivision : Str
  presentDivision : Str
deriving DecidableEq, Repr

/-- The query string of `GET /biodatas`; a `none` field is an absent
parameter (Express yields `undefined`). -/
structure QueryParams where
  gender : Option Str := none
  permanentDivision : Option Str := none
  presentDivision : Option Str := none
  minAge : Option Str := none
  maxAge : Option Str := none
  page : Option Str := none
  limit : Option Str := none
  sort : Option Str := none
  q : Option Str := none
deriving DecidableEq, Repr

/-- JavaScript truthiness of an optional query-string value: present and
non-empty. -/
def truthy : Option Str → Bool
  | none => false
  | some s => !s.isEmpty

/-- MongoDB `$gte` with a possibly-NaN bound against an integer field: NaN
compares equal only to NaN, so a NaN bound matches no integer age. -/
def mongoGte : Option Int → Int → Bool
  | some bound, a => decide (bound ≤ a)
  | none, _ => false

/-- MongoDB `$lte` with a possibly-NaN bound against an integer field. -/
def mongoLte : Option Int → Int → Bool
  | some bound, a => decide (a ≤ bound)
  | none, _ => false

/-- `if (gender) query.biodataType = new RegExp("^" + gender + "$", "i")`. -/
def genderClause (g? : Option Str) (field : Str) : Bool :=
  match g? with
  | none => true
  | some g => if g.isEmpty then true else regexFullCI g field

/-- `if (permanentDivision) query.permanentDivision = permanentDivision`
(exact, case-sensitive equality); likewise for `presentDivision`. -/
def strEqClause (p? : Option Str) (field : Str) : Bool :=
  match p? with
  | none => true
  | some p => if p.isEmpty then true else decide (field = p)

/-- `if (minAge && maxAge) query.age = { $gte: parseInt(minAge), $lte:
parseInt(maxAge) }` — the bound pair is installed only when BOTH parameters
are truthy. -/
def ageClause (mn mx : Option Str) (a : Int) : Bool :=
  match mn, mx with
  | some lo, some hi =>
    if lo.isEmpty || hi.isEmpty then true
    else mongoGte (parseIntJS lo) a && mongoLte (parseIntJS hi) a
  | _, _ => true

/-- `if (q) query.$or = [name, occupation, permanentDivision each $regex q]`. -/
def textClause (q? : Option Str) (b : Biodata) : Bool :=
  match q? with
  | none => true
  | some t =>
    if t.isEmpty then true
    else regexSearchCI t b.name || regexSearchCI t b.occupation ||
      regexSearchCI t b.permanentDivision

/-- The filter document built by `GET /biodatas`, applied to one profile; the
clauses of a MongoDB query document combine by AND. -/
def matchesQuery (qp : QueryParams) (b : Biodata) : Bool :=
  genderClause qp.gender b.biodataType &&
  strEqClause qp.permanentDivision b.permanentDivision &&
  strEqClause qp.presentDivision b.presentDivision &&
  ageClause qp.minAge qp.maxAge b.age &&
  textClause qp.q b

/-- `const sortOrder = sort === "desc" ? -1 : 1`. -/
def sortOrderOf (qp : QueryParams) : Int :=
  if qp.sort = some ("desc".toList) then -1 else 1

/-- `y` sorts strictly before `x` under `.sort({ age: ord })`. -/
def ageBefore (ord : Int) (y x : Biodata) : Bool :=
  if ord = -1 then decide (x.age < y.age) else decide (y.age < x.age)

def insertByAge (ord : Int) (x : Biodata) : List Biodata → List Biodata
  | [] => [x]
  | y :: ys => if ageBefore ord y x then y :: insertByAge ord x ys else x :: y :: ys

/-- Stable sort by `age` (the model fixes the deterministic stable order the
spec asks implementations to provide). -/
def sortByAge (ord : Int) : List Biodata → List Biodata
  | [] => []
  | x :: xs => insertByAge ord x (sortByAge ord xs)

/-- `parseInt(page)` after the destructuring default `page = 1`. -/
def pageParsed (qp : QueryParams) : Option Int :=
  match qp.page with
  | none => some 1
  | some s => parseIntJS s

/-- `parseInt(limit)` after the destructuring default `limit = 0`. -/
def limitParsed (qp : QueryParams) : Option Int :=
  match qp.limit with
  | none => some 0
  | some s => parseIntJS s

/-- `parseInt(limit || 0)`: the `||` also replaces a present-but-empty
(falsy) string by the number 0. -/
def limitOr0 (qp : QueryParams) : Option Int :=
  match qp.limit with
  | none => some 0
  | some s => if s.isEmpty then some 0 else parseIntJS s

/-- `parseInt(limit) > 0` (false when `parseInt` gave NaN). -/
def applyPagination (qp : QueryParams) : Bool :=
  match limitParsed qp with
  | some l => decide (0 < l)
  | none => false

/-- The JSON body `{ total, page, limit, biodatas }` sent by `GET /biodatas`;
`page`/`limit` echo `parseInt` results, with `none` for NaN. -/
structure BiodatasResult where
  total : Nat
  page : Option Int
  limit : Option Int
  biodatas : List Biodata
deriving DecidableEq, Repr

/-- `GET /biodatas`: build the filter, sort by age, optionally skip/limit,
and return the page together with `countDocuments(query)`.  A negative or NaN
skip is rejected by the server, which the route surfaces as the generic 500
error. -/
def getBiodatas (store : List Biodata) (qp : QueryParams) : Except Str BiodatasResult :=
  if applyPagination qp then
    match pageParsed qp, limitOr0 qp, limitParsed qp with
    | some pv, some l0, some lv =>
      if (pv - 1) * l0 < 0 then Except.error ("Failed to get biodatas".toList)
      else Except.ok
        ⟨(store.filter (matchesQuery qp)).length, some pv, some lv,
          ((sortByAge (sortOrderOf qp) (store.filter (matchesQuery qp))).drop
            ((pv - 1) * l0).toNat).take lv.toNat⟩
    | _, _, _ => Except.error ("Failed to get biodatas".toList)
  else
    Except.ok
      ⟨(store.filter (matchesQuery qp)).length, pageParsed qp, limitParsed qp,
        sortByAge (sortOrderOf qp) (store.filter (matchesQuery qp))⟩

/-- A stored biodata document as the allocators see it: the Mongo `_id`
(modelled as a `Nat` handed out at insertion), the allocator-assigned
`biodataId`, and the validated `name`. -/
structure BioDoc where
  oid : Nat
  biodataId : Nat
  name : Str
deriving DecidableEq, Repr

/-- `biodataCollection.find().sort({ biodataId: -1 }).limit(1)` followed by
`last.length ? last[0].biodataId + 1 : 1` (index.js scan-max allocator). -/
def scanNextId (docs : List BioDoc) : Nat :=
  match docs with
  | [] => 1
  | d :: ds => ds.foldl (fun m x => max m x.biodataId) d.biodataId + 1

/-- State of the scan-max variant: the `biodatas` collection and the next
fresh `_id`. -/
structure ScanState where
  docs : List BioDoc
  nextOid : Nat
deriving DecidableEq, Repr

/-- `POST /biodatas` of index.js: validate `name`, compute the scan-max id,
insert.  Returns the assigned id (`none` for the 400 validation response). -/
def postBiodataScan (st : ScanState) (nm : Str) : Option Nat × ScanState :=
  if nm.isEmpty then (none, st)
  else
    (some (scanNextId st.docs),
      ⟨st.docs ++ [⟨st.nextOid, scanNextId st.docs, nm⟩], st.nextOid + 1⟩)

/-- `deleteOne({ _id })`: remove the first (unique) document with that id. -/
def deleteOneByOid : List BioDoc → Nat → List BioDoc
  | [], _ => []
  | d :: ds, k => if d.oid = k then ds else d :: deleteOneByOid ds k

/-- `getNextBiodataId`: one atomic `findOneAndUpdate({_id:"biodataId"},
{$inc:{seq:1}}, {upsert:true, returnDocument:"after"})` on the counter
document, modelled as a single step on the counter state (`none` = counter
document absent).  Returns the new sequence value and the new counter. -/
def getNextBiodataId : Option Nat → Nat × Option Nat
  | none => (1, some 1)
  | some s => (s + 1, some (s + 1))

/-- State of the counter variant: the `biodatas` collection, the `counters`
document, and the next fresh `_id`. -/
structure CounterState where
  docs : List BioDoc
  counter : Option Nat
  nextOid : Nat
deriving DecidableEq, Repr

/-- `POST /biodatas` of the counter variant, with the outcome of the awaited
increment made explicit: `alloc = none` models the underlying
`findOneAndUpdate` failing (storage unavailable), in which case the `try`
block aborts before `insertOne` and the route answers the generic 500.  On
success the profile is inserted with the returned id. -/
def postBiodataWithAlloc (alloc : Option (Nat × Option Nat)) (st : CounterState)
    (nm : Str) : Except Str Nat × CounterState :=
  if nm.isEmpty then (Except.error ("Name is required".toList), st)
  else
    match alloc with
    | none => (Except.error ("Failed to create biodata".toList), st)
    | some (id, c) =>
      (Except.ok id, ⟨st.docs ++ [⟨st.nextOid, id, nm⟩], c, st.nextOid + 1⟩)

/-- `POST /biodatas` of the counter variant when the increment succeeds. -/
def postBiodataCounter (st : CounterState) (nm : Str) : Except Str Nat × CounterState :=
  postBiodataWithAlloc (some (getNextBiodataId st.counter)) st nm

/-- A lifecycle operation on the biodata store: a profile creation or a
`DELETE /biodatas/:id`. -/
inductive BioOp where
  | create (nm : Str)
  | del (oid : Nat)
deriving DecidableEq, Repr

/-- Run a sequence of operations against the scan-max variant, collecting the
ids assigned by the successful creations in order. -/
def runScanOps (st : ScanState) : List BioOp → List Nat × ScanState
  | [] => ([], st)
  | BioOp.create nm :: rest =>
    match postBiodataScan st nm with
    | (some i, st1) =>
      match runScanOps st1 rest with
      | (ids, st2) => (i :: ids, st2)
    | (none, st1) => runScanOps st1 rest
  | BioOp.del k :: rest => runScanOps ⟨deleteOneByOid st.docs k, st.nextOid⟩ rest

/-- Run a sequence of operations against the counter variant, collecting the
ids assigned by the successful creations in order. -/
def runCounterOps (st : CounterState) : List BioOp → List Nat × CounterState
  | [] => ([], st)
  | BioOp.create nm :: rest =>
    match postBiodataCounter st nm with
    | (Except.ok i, st1) =>
      match runCounterOps st1 rest with
      | (ids, st2) => (i :: ids, st2)
    | (Except.error _, st1) => runCounterOps st1 rest
  | BioOp.del k :: rest =>
    runCounterOps ⟨deleteOneByOid st.docs k, st.counter, st.nextOid⟩ rest

/-- Two concurrent invocations of `getNextBiodataId` against one counter.
Each invocation consists of exactly one storage operation, which the storage
layer executes atomically, so an execution is an interleaving of the two
atomic steps: `aFirst` selects which caller's step commits first.  The pair
is (value observed by caller A, value observed by caller B). -/
def concurrentAlloc (aFirst : Bool) (c : Option Nat) : Nat × Nat :=
  if aFirst then
    ((getNextBiodataId c).1, (getNextBiodataId (getNextBiodataId c).2).1)
  else
    ((getNextBiodataId (getNextBiodataId c).2).1, (getNextBiodataId c).1)

/-- A stored user-account document, restricted to the fields `POST /users`
computes. -/
structure UserDoc where
  email : Str
  role : Str
deriving DecidableEq, Repr

/-- The request body of `POST /users`: an email plus an optional `role`
field (other spread fields do not interact with the role computation). -/
structure UserBody where
  email : Str
  role : Option Str
deriving DecidableEq, Repr

/-- The role stored by `{ ...user, role: user.role || "user" }`: the `||`
falls back to "user" when `role` is absent or falsy (the empty string). -/
def storedRole : Option Str → Str
  | none => "user".toList
  | some r => if r.isEmpty then "user".toList else r

/-- `updateOne({ email }, { $set: ... }, { upsert: true })`: update the first
document with that email, or append a new one. -/
def upsertUser : List UserDoc → Str → Str → List UserDoc
  | [], e, r => [⟨e, r⟩]
  | d :: ds, e, r => if d.email = e then ⟨e, r⟩ :: ds else d :: upsertUser ds e r

/-- `POST /users`: reject a falsy email with a 400 (`none`), otherwise upsert
the account with the computed role. -/
def postUsers (store : List UserDoc) (body : UserBody) : Option (List UserDoc) :=
  if body.email.isEmpty then none
  else some (upsertUser store body.email (storedRole body.role))

/-- `findOne({ email })`: the first stored document with that email. -/
def findUser : List UserDoc → Str → Option UserDoc
  | [], _ => none
  | d :: ds, e => if d.email = e then some d else findUser ds e

/-- One segment of an Express route pattern: a literal or a `:param`. -/
inductive Seg where
  | lit (s : Str)
  | param
deriving DecidableEq, Repr

/-- The GET handlers registered in index.js, one tag per route. -/
inductive GetHandler where
  | usersList
  | userByEmail
  | biodataById
  | biodataSimilar
  | biodatasQuery
  | myContactRequests
  | premiumRequestsList
  | favouritesMy
  | successStoriesList
  | adminStats
  | root
deriving DecidableEq, Repr

/-- A pattern matches a path when the segments align, a literal segment
matching only itself and a `:param` segment matching any one segment. -/
def matchRoute : List Seg → List Str → Bool
  | [], [] => true
  | Seg.lit s :: ps, x :: xs => if s = x then matchRoute ps xs else false
  | Seg.param :: ps, _ :: xs => matchRoute ps xs
  | _, _ => false

/-- The GET routes of index.js in registration order.  In particular
`/biodatas/:id` (line 206) is registered before `/biodatas/similar`
(line 219). -/
def getRoutes : List (List Seg × GetHandler) :=
  [([Seg.lit ("users".toList)], GetHandler.usersList),
   ([Seg.lit ("users".toList), Seg.param], GetHandler.userByEmail),
   ([Seg.lit ("biodatas".toList), Seg.param], GetHandler.biodataById),
   ([Seg.lit ("biodatas".toList), Seg.lit ("similar".toList)], GetHandler.biodataSimilar),
   ([Seg.lit ("biodatas".toList)], GetHandler.biodatasQuery),
   ([Seg.lit ("my-contact-requests".toList)], GetHandler.myContactRequests),
   ([Seg.lit ("premium-requests".toList)], GetHandler.premiumRequestsList),
   ([Seg.lit ("favourites".toList), Seg.lit ("my".toList)], GetHandler.favouritesMy),
   ([Seg.lit ("success-stories".toList)], GetHandler.successStoriesList),
   ([Seg.lit ("admin".toList), Seg.lit ("stats".toList)], GetHandler.adminStats),
   ([], GetHandler.root)]

/-- Express dispatch: the first registered route whose pattern matches the
path handles the request. -/
def dispatchGet (path : List Str) : Option GetHandler :=
  (getRoutes.find? (fun r => matchRoute r.1 path)).map (fun r => r.2)

/-- `ObjectId.isValid`: a 24-character hex string or a 12-character string. -/
def isValidObjectId (s : Str) : Bool :=
  decide (s.length = 12) ||
  (decide (s.length = 24) && s.all (fun c => c.isDigit ||
    (decide ('a' ≤ c) && decide (c ≤ 'f')) || (decide ('A' ≤ c) && decide (c ≤ 'F'))))

/-- Responses of `GET /biodatas/:id`. -/
inductive IdResp where
  | okDoc (oid : Str)
  | badRequest (msg : Str)
  | notFound (msg : Str)
deriving DecidableEq, Repr

/-- `GET /biodatas/:id`: reject an invalid ObjectId with the 400
"Invalid biodata ID", otherwise look the document up (the store is the list
of stored `_id`s, the only part this route consults before 404/200). -/
def getBiodataByIdResp (oids : List Str) (id : Str) : IdResp :=
  if isValidObjectId id then
    match oids.find? (fun o => decide (o = id)) with
    | some o => IdResp.okDoc o
    | none => IdResp.notFound ("Biodata not found".toList)
  else IdResp.badRequest ("Invalid biodata ID".toList)

deriving instance DecidableEq for Except

/-! Concrete fixtures used by counterexamples and witnesses. -/

def c1Ops : List BioOp :=
  [BioOp.create ("Asha".toList), BioOp.create ("Bina".toList),
   BioOp.del 1, BioOp.create ("Mina".toList)]

def fixA : Biodata :=
  ⟨"Asha".toList, "Female".toList, 30, "Engineer".toList, "Dhaka".toList, "Dhaka".toList⟩

def fixB : Biodata :=
  ⟨"Bina".toList, "Female".toList, 10, "Doctor".toList, "Sylhet".toList, "Sylhet".toList⟩

def fixC : Biodata :=
  ⟨"Mina".toList, "Male".toList, 20, "Teacher".toList, "Khulna".toList, "Khulna".toList⟩

def w2Store : List Biodata := [fixA, fixB, fixC]

def w2Qp : QueryParams := { page := some ("2".toList), limit := some ("1".toList) }

def cx3 : Biodata :=
  ⟨"Rita".toList, "Female".toList, 10, "Student".toList, "Dhaka".toList, "Dhaka".toList⟩

def cx3Qp : QueryParams := { minAge := some ("20".toList) }

def w3 : Biodata :=
  ⟨"Lina".toList, "Female".toList, 25, "Nurse".toList, "Dhaka".toList, "Dhaka".toList⟩

def w3Qp : QueryParams := { minAge := some ("20".toList), maxAge := some ("30".toList) }

def cx4Qp : QueryParams := { gender := some ("F.male".toList) }

def w4 : Biodata :=
  ⟨"Sara".toList, "FEMALE".toList, 22, "Artist".toList, "Dhaka".toList, "Dhaka".toList⟩

def w4Qp : QueryParams := { gender := some ("female".toList) }

def cx5 : Biodata :=
  ⟨"abc".toList, "Female".toList, 22, "zz".toList, "ww".toList, "ww".toList⟩

def cx5Qp : QueryParams := { q := some ("a.c".toList) }

def w5 : Biodata :=
  ⟨"xx".toList, "Female".toList, 22, "yy".toList, "Dhaka".toList, "Dhaka".toList⟩

def w5Qp : QueryParams := { q := some ("dha".toList) }

def cx6 : Biodata :=
  ⟨"Tara".toList, "Female".toList, 40, "Pilot".toList, "Dhaka".toList, "Dhaka".toList⟩

def cx6QpBad : QueryParams := { minAge := some ("abc".toList), maxAge := some ("30".toList) }

def cx6QpNoMin : QueryParams := { maxAge := some ("30".toList) }

def w6Qp : QueryParams := { limit := some ("abc".toList) }

def cx9Body : UserBody := ⟨"a@x.com".toList, some []⟩

def w9Body : UserBody := ⟨"a@x.com".toList, some ("admin".toList)⟩

/-! Helper lemmas. -/

theorem parseIntJS_nil : parseIntJS ([] : Str) = none := rfl

theorem limitOr0_of_parse (qp : QueryParams) (s : Str) (L : Int)
    (hq : qp.limit = some s) (hp : parseIntJS s = some L) :
    limitOr0 qp = some L := by
  unfold limitOr0
  rw [hq]
  cases s with
  | nil => rw [parseIntJS_nil] at hp; exact absurd hp (by simp)
  | cons c cs => simpa [List.isEmpty] using hp

theorem toPattern_lits (g : Str) (h : ∀ c ∈ g, isRegexMeta c = false) :
    toPattern g = some (g.map RexAtom.lit) := by
  induction g with
  | nil => rfl
  | cons c cs ih =>
    have hc : isRegexMeta c = false := h c (by simp)
    have hdot : ¬ (c = '.') := by
      intro e
      rw [e] at hc
      simp [isRegexMeta, regexMetaChars] at hc
    simp [toPattern, hdot, hc, ih (fun d hd => h d (by simp [hd]))]

theorem fullMatchCI_lits (g s : Str) :
    fullMatchCI (g.map RexAtom.lit) s = true ↔ lowerStr g = lowerStr s := by
  induction g generalizing s with
  | nil => cases s <;> simp [fullMatchCI, lowerStr]
  | cons a as ih =>
    cases s with
    | nil => simp [fullMatchCI, lowerStr]
    | cons c cs =>
      simp [fullMatchCI, atomMatchCI, lowerStr, Bool.and_eq_true, ih cs]

theorem prefixMatchCI_lits (p s : Str) :
    prefixMatchCI (p.map RexAtom.lit) s = (lowerStr p).isPrefixOf (lowerStr s) := by
  induction p generalizing s with
  | nil => cases s <;> simp [prefixMatchCI, lowerStr, List.isPrefixOf]
  | cons a as ih =>
    cases s with
    | nil => simp [prefixMatchCI, lowerStr, List.isPrefixOf]
    | cons c cs =>
      simp [prefixMatchCI, atomMatchCI, lowerStr, List.isPrefixOf, ih cs]

theorem searchCI_lits (p s : Str) :
    searchCI (p.map RexAtom.lit) s = isSubstrB (lowerStr p) (lowerStr s) := by
  induction s with
  | nil =>
    cases p with
    | nil => simp [searchCI, prefixMatchCI, isSubstrB, lowerStr]
    | cons a as => simp [searchCI, prefixMatchCI, isSubstrB, lowerStr]
  | cons c cs ih =>
    simp [searchCI, isSubstrB, lowerStr, prefixMatchCI_lits, ih]

/-- Claim C1 (code bug in the scan-max variant): from an empty store, the
operation sequence create, create, delete-the-current-maximum, create makes
the index.js scan-max allocator assign the ids 1, 2, 2 — the id 2 is assigned
to a later profile after the profile holding it is deleted, so assigned ids
are neither fresh nor strictly increasing.  The counter-variant allocator
assigns 1, 2, 3 on the same sequence, as the claim demands. -/
theorem scanMax_reuses_id_after_delete :
    (runScanOps ⟨[], 0⟩ c1Ops).1 = [1, 2, 2] ∧
      (runCounterOps ⟨[], none, 0⟩ c1Ops).1 = [1, 2, 3] := by decide

/-- Claim C7: when the allocator's underlying increment operation fails,
`POST /biodatas` answers an error and the biodata store is left exactly as it
was — in particular no profile is persisted with a missing or placeholder
id. -/
theorem post_biodata_aborts_on_alloc_failure (st : CounterState) (nm : Str) :
    (∃ e, (postBiodataWithAlloc none st nm).1 = Except.error e) ∧
      (postBiodataWithAlloc none st nm).2 = st := by
  by_cases h : nm.isEmpty = true
  · exact ⟨⟨"Name is required".toList, by simp [postBiodataWithAlloc, h]⟩,
      by simp [postBiodataWithAlloc, h]⟩
  · exact ⟨⟨"Failed to create biodata".toList, by simp [postBiodataWithAlloc, h]⟩,
      by simp [postBiodataWithAlloc, h]⟩

/-- Claim C8: `getNextBiodataId` performs its increment as one atomic storage
operation, so for any interleaving of two concurrent invocations and any
prior counter state the two returned values are distinct. -/
theorem counter_alloc_concurrent_distinct (aFirst : Bool) (c : Option Nat) :
    (concurrentAlloc aFirst c).1 ≠ (concurrentAlloc aFirst c).2 := by
  cases aFirst <;> cases c <;> simp [concurrentAlloc, getNextBiodataId]

/-- Claim C10: in the variant registering both routes, `GET /biodatas/similar`
is dispatched to the earlier-registered `GET /biodatas/:id` handler with
`id = "similar"`, which is not a valid ObjectId, so every such request gets
the 400 "Invalid biodata ID" response, whatever the store holds. -/
theorem biodatas_similar_unreachable :
    dispatchGet ["biodatas".toList, "similar".toList] = some GetHandler.biodataById ∧
      isValidObjectId ("similar".toList) = false ∧
      ∀ oids : List Str, getBiodataByIdResp oids ("similar".toList) =
        IdResp.badRequest ("Invalid biodata ID".toList) := by
  refine ⟨by decide, by decide, ?_⟩
  intro oids
  unfold getBiodataByIdResp
  rw [if_neg (by decide : ¬ (isValidObjectId ("similar".toList) = true))]

/-- Claim C3 counterexample: with only `minAge=20` supplied, the query
engine still returns a profile of age 10 — supplying `minAge` alone imposes
no lower bound on age, contrary to the claim. -/
theorem minAge_alone_not_applied_cx :
    getBiodatas [cx3] cx3Qp = Except.ok ⟨1, some 1, some 0, [cx3]⟩ ∧
      cx3.age < 20 := by decide

/-- Claim C4 counterexample: the gender value "F.male" selects the profile
whose category is "Female" although the two differ even case-insensitively —
the value is interpolated into a regex, so `.` matches any character. -/
theorem gender_regex_not_exact_cx :
    getBiodatas [fixA] cx4Qp = Except.ok ⟨1, some 1, some 0, [fixA]⟩ ∧
      lowerStr ("F.male".toList) ≠ lowerStr fixA.biodataType := by decide

/-- Claim C5 counterexample: with `q = "a.c"` the engine returns a profile
none of whose name, occupation, or permanentDivision contains "a.c" as a
case-insensitive substring — `q` is interpreted as a regex pattern, not a
literal substring. -/
theorem qtext_regex_not_substring_cx :
    getBiodatas [cx5] cx5Qp = Except.ok ⟨1, some 1, some 0, [cx5]⟩ ∧
      containsCI ("a.c".toList) cx5.name = false ∧
      containsCI ("a.c".toList) cx5.occupation = false ∧
      containsCI ("a.c".toList) cx5.permanentDivision = false := by decide

/-- Claim C6 counterexample: a non-numeric `minAge` with `maxAge` supplied is
not treated as absent — the query still succeeds but installs a NaN lower
bound, so an age-40 profile is dropped that the `minAge`-free query
returns. -/
theorem nonnumeric_minAge_not_ignored_cx :
    getBiodatas [cx6] cx6QpBad = Except.ok ⟨0, some 1, some 0, []⟩ ∧
      getBiodatas [cx6] cx6QpNoMin = Except.ok ⟨1, some 1, some 0, [cx6]⟩ ∧
      getBiodatas [cx6] cx6QpBad ≠ getBiodatas [cx6] cx6QpNoMin := by decide

/-- Claim C9 counterexample: a body that does contain a role field — the
empty string — is stored with the default role "user", not verbatim: the
`||` fallback fires on every falsy role, not only on an absent one. -/
theorem empty_role_gets_default_cx :
    postUsers [] cx9Body = some [⟨"a@x.com".toList, "user".toList⟩] ∧
      cx9Body.role = some [] ∧ ¬ (([] : Str) = "user".toList) := by decide

/-- Claim C2: when `limit` parses to a positive integer (and `page` to a
1-based page number), `GET /biodatas` returns the matching profiles in sort
order after skipping `(page-1)*limit` of them, taking at most `limit`; when
`limit` is absent or parses non-positive, all matching profiles are returned;
in both cases the returned `total` is the number of profiles matching the
filter, independent of `page` and `limit`. -/
theorem getBiodatas_pagination_correct (store : List Biodata) (qp : QueryParams) :
    (∀ P L : Int, pageParsed qp = some P → 1 ≤ P → limitParsed qp = some L → 0 < L →
      getBiodatas store qp =
        Except.ok ⟨(store.filter (matchesQuery qp)).length, some P, some L,
          ((sortByAge (sortOrderOf qp) (store.filter (matchesQuery qp))).drop
            ((P - 1) * L).toNat).take L.toNat⟩) ∧
    (∀ L : Int, limitParsed qp = some L → L ≤ 0 →
      getBiodatas store qp =
        Except.ok ⟨(store.filter (matchesQuery qp)).length, pageParsed qp, some L,
          sortByAge (sortOrderOf qp) (store.filter (matchesQuery qp))⟩) := by
  constructor
  · intro P L hP hP1 hL hL0
    have hap : applyPagination qp = true := by
      unfold applyPagination
      rw [hL]
      simpa using hL0
    have hq : ∃ s, qp.limit = some s := by
      cases hql : qp.limit with
      | none =>
        unfold limitParsed at hL
        rw [hql] at hL
        simp at hL
        omega
      | some s => exact ⟨s, rfl⟩
    obtain ⟨s, hs⟩ := hq
    have hps : parseIntJS s = some L := by
      unfold limitParsed at hL
      rw [hs] at hL
      exact hL
    have hl0 : limitOr0 qp = some L := limitOr0_of_parse qp s L hs hps
    have hsk : ¬ ((P - 1) * L < 0) := by
      have hnn : (0 : Int) ≤ (P - 1) * L := mul_nonneg (by omega) (by omega)
      omega
    simp [getBiodatas, hap, hP, hl0, hL, hsk]
  · intro L hL hL0
    have hap : applyPagination qp = false := by
      unfold applyPagination
      rw [hL]
      simpa using (by omega : ¬ (0 < L))
    simp [getBiodatas, hap, hL]

/-- Witness for C2: a three-profile store queried with `page=2`, `limit=1`
returns the second profile in age order and `total = 3`. -/
theorem getBiodatas_pagination_correct_witness :
    getBiodatas w2Store w2Qp = Except.ok ⟨3, some 2, some 1, [fixC]⟩ := by
  have h := (getBiodatas_pagination_correct w2Store w2Qp).1 2 1
    (by decide) (by decide) (by decide) (by decide)
  rw [h]
  decide

/-- Claim C3 (amended): the age bounds are applied only when BOTH `minAge`
and `maxAge` are supplied and truthy — supplying only one imposes no age
constraint at all; when both are supplied and numeric, the filter is the
inclusive closed range `[minAge, maxAge]`. -/
theorem ageFilter_requires_both_bounds (qp : QueryParams) (b : Biodata) :
    (truthy qp.minAge = false ∨ truthy qp.maxAge = false →
      matchesQuery qp b = matchesQuery { qp with minAge := none, maxAge := none } b) ∧
    (∀ mn mx : Str, ∀ m M : Int, qp.minAge = some mn → qp.maxAge = some mx →
      mn ≠ [] → mx ≠ [] → parseIntJS mn = some m → parseIntJS mx = some M →
      (matchesQuery qp b = true ↔
        (matchesQuery { qp with minAge := none, maxAge := none } b = true ∧
          m ≤ b.age ∧ b.age ≤ M))) := by
  constructor
  · intro h
    have hage : ageClause qp.minAge qp.maxAge b.age = ageClause none none b.age := by
      rcases h with h | h
      · cases hm : qp.minAge with
        | none => cases hx : qp.maxAge <;> simp [ageClause]
        | some s =>
          rw [hm] at h
          simp [truthy] at h
          cases hx : qp.maxAge <;> simp [ageClause, h]
      · cases hx : qp.maxAge with
        | none => cases hm : qp.minAge <;> simp [ageClause]
        | some s =>
          rw [hx] at h
          simp [truthy] at h
          cases hm : qp.minAge <;> simp [ageClause, h]
    simp [matchesQuery, hage]
  · intro mn mx m M hmn hmx hmn0 hmx0 hm hM
    have hmne : mn.isEmpty = false := by
      cases mn with
      | nil => exact absurd rfl hmn0
      | cons c cs => rfl
    have hmxe : mx.isEmpty = false := by
      cases mx with
      | nil => exact absurd rfl hmx0
      | cons c cs => rfl
    simp [matchesQuery, ageClause, hmn, hmx, hmne, hmxe, hm, hM, mongoGte, mongoLte,
      Bool.and_eq_true, and_assoc]
    tauto

/-- Witness for the amended C3: with `minAge=20`, `maxAge=30` both supplied,
matching an age-25 profile is equivalent to the age-free filter conjoined
with `20 ≤ age ≤ 30`. -/
theorem ageFilter_requires_both_bounds_witness :
    matchesQuery w3Qp w3 = true ↔
      (matchesQuery { w3Qp with minAge := none, maxAge := none } w3 = true ∧
        20 ≤ w3.age ∧ w3.age ≤ 30) :=
  (ageFilter_requires_both_bounds w3Qp w3).2 ("20".toList) ("30".toList) 20 30
    rfl rfl (by decide) (by decide) (by decide) (by decide)

/-- Claim C4 (amended): for gender values made of non-metacharacters the
filter is a case-insensitive full-string equality on the category field; the
value is interpolated into a regex, so metacharacters such as `.` act as
pattern operators instead of matching literally. -/
theorem gender_exact_ci_when_literal (qp : QueryParams) (b : Biodata) (g : Str)
    (hg : qp.gender = some g) (hne : g ≠ [])
    (hmeta : ∀ c ∈ g, isRegexMeta c = false) :
    (matchesQuery qp b = true ↔
      (lowerStr g = lowerStr b.biodataType ∧
        matchesQuery { qp with gender := none } b = true)) := by
  have hge : g.isEmpty = false := by
    cases g with
    | nil => exact absurd rfl hne
    | cons c cs => rfl
  have hpat : toPattern g = some (g.map RexAtom.lit) := toPattern_lits g hmeta
  simp [matchesQuery, genderClause, hg, hge, regexFullCI, hpat, fullMatchCI_lits,
    Bool.and_eq_true, and_assoc]

/-- Witness for the amended C4: the literal gender value "female" matches the
profile category "FEMALE" exactly when the two agree case-insensitively. -/
theorem gender_exact_ci_when_literal_witness :
    matchesQuery w4Qp w4 = true ↔
      (lowerStr ("female".toList) = lowerStr w4.biodataType ∧
        matchesQuery { w4Qp with gender := none } w4 = true) :=
  gender_exact_ci_when_literal w4Qp w4 ("female".toList) rfl (by decide) (by decide)

/-- Claim C5 (amended): for a free-text value made of non-metacharacters, a
profile matches exactly when it passes all other filters AND one of name,
occupation, permanentDivision contains the value as a case-insensitive
substring (OR of the three, AND with the rest); metacharacters in `q` act as
regex operators instead. -/
theorem qtext_substring_when_literal (qp : QueryParams) (b : Biodata) (t : Str)
    (hq : qp.q = some t) (hne : t ≠ [])
    (hmeta : ∀ c ∈ t, isRegexMeta c = false) :
    (matchesQuery qp b = true ↔
      (matchesQuery { qp with q := none } b = true ∧
        (containsCI t b.name = true ∨ containsCI t b.occupation = true ∨
          containsCI t b.permanentDivision = true))) := by
  have hte : t.isEmpty = false := by
    cases t with
    | nil => exact absurd rfl hne
    | cons c cs => rfl
  have hpat : toPattern t = some (t.map RexAtom.lit) := toPattern_lits t hmeta
  simp [matchesQuery, textClause, hq, hte, regexSearchCI, hpat, searchCI_lits,
    containsCI, Bool.and_eq_true, Bool.or_eq_true, and_assoc]
  tauto

/-- Witness for the amended C5: `q = "dha"` matches a profile whose
permanentDivision is "Dhaka" via case-insensitive substring containment. -/
theorem qtext_substring_when_literal_witness :
    matchesQuery w5Qp w5 = true ↔
      (matchesQuery { w5Qp with q := none } w5 = true ∧
        (containsCI ("dha".toList) w5.name = true ∨
          containsCI ("dha".toList) w5.occupation = true ∨
          containsCI ("dha".toList) w5.permanentDivision = true)) :=
  qtext_substring_when_literal w5Qp w5 ("dha".toList) rfl (by decide) (by decide)

/-- Claim C6 (amended): a non-numeric `limit` is harmless — the query
succeeds and returns the same matching profiles and the same total as the
identical query with `limit` removed (only the echoed `limit` field differs:
NaN versus the default 0).  By contrast a non-numeric `minAge`/`maxAge` with
the other bound supplied is NOT treated as absent (see the counterexample):
it installs a NaN bound that changes the result. -/
theorem nonnumeric_limit_treated_absent (store : List Biodata) (qp : QueryParams)
    (s : Str) (hq : qp.limit = some s) (hn : parseIntJS s = none) :
    getBiodatas store qp =
      Except.ok ⟨(store.filter (matchesQuery qp)).length, pageParsed qp, none,
        sortByAge (sortOrderOf qp) (store.filter (matchesQuery qp))⟩ ∧
    getBiodatas store { qp with limit := none } =
      Except.ok ⟨(store.filter (matchesQuery qp)).length, pageParsed qp, some 0,
        sortByAge (sortOrderOf qp) (store.filter (matchesQuery qp))⟩ := by
  have hlp : limitParsed qp = none := by
    unfold limitParsed
    rw [hq]
    exact hn
  have hap : applyPagination qp = false := by
    unfold applyPagination
    rw [hlp]
  constructor
  · simp [getBiodatas, hap, hlp]
  · rfl

/-- Witness for the amended C6: `limit=abc` on a one-profile store returns
the same items and total as the limit-free query. -/
theorem nonnumeric_limit_treated_absent_witness :
    getBiodatas [cx6] w6Qp = Except.ok ⟨1, some 1, none, [cx6]⟩ ∧
      getBiodatas [cx6] { w6Qp with limit := none } =
        Except.ok ⟨1, some 1, some 0, [cx6]⟩ := by
  have h := nonnumeric_limit_treated_absent [cx6] w6Qp ("abc".toList) rfl (by decide)
  exact ⟨by rw [h.1]; decide, by rw [h.2]; decide⟩

theorem findUser_upsertUser (store : List UserDoc) (e r : Str) :
    findUser (upsertUser store e r) e = some ⟨e, r⟩ := by
  induction store with
  | nil => simp [upsertUser, findUser]
  | cons d ds ih =>
    by_cases h : d.email = e
    · simp [upsertUser, findUser, h]
    · simp [upsertUser, findUser, h, ih]

/-- Claim C9 (amended): the unauthenticated `POST /users` upsert persists any
non-empty client-supplied role verbatim (including "admin"); the default
role "user" is applied when the role field is absent OR falsy (the empty
string) — the `||` fallback, not presence of the field, decides. -/
theorem role_persisted_unless_falsy (store : List UserDoc) (body : UserBody)
    (he : body.email ≠ []) :
    ∃ res, postUsers store body = some res ∧
      ((∀ r, body.role = some r → r ≠ [] →
          findUser res body.email = some ⟨body.email, r⟩) ∧
        (body.role = none ∨ body.role = some [] →
          findUser res body.email = some ⟨body.email, "user".toList⟩)) := by
  have hee : body.email.isEmpty = false := by
    cases hb : body.email with
    | nil => exact absurd hb he
    | cons c cs => rfl
  refine ⟨upsertUser store body.email (storedRole body.role), ?_, ?_, ?_⟩
  · simp [postUsers, hee]
  · intro r hr hrne
    have hsr : storedRole body.role = r := by
      rw [hr]
      cases r with
      | nil => exact absurd rfl hrne
      | cons c cs => rfl
    rw [hsr]
    exact findUser_upsertUser store body.email r
  · intro h
    have hsr : storedRole body.role = "user".toList := by
      rcases h with h | h <;> rw [h] <;> rfl
    rw [hsr]
    exact findUser_upsertUser store body.email ("user".toList)

/-- Witness for the amended C9: a body supplying role "admin" with no
authentication whatsoever ends up stored with role "admin" verbatim. -/
theorem role_persisted_unless_falsy_witness :
    ∃ res, postUsers [] w9Body = some res ∧
      ((∀ r, w9Body.role = some r → r ≠ [] →
          findUser res w9Body.email = some ⟨w9Body.email, r⟩) ∧
        (w9Body.role = none ∨ w9Body.role = some [] →
          findUser res w9Body.email = some ⟨w9Body.email, "user".toList⟩)) :=
  role_persisted_unless_falsy [] w9Body (by decide)
